import Mathlib

/-!
Shallow embedding of the bunnylol plugin loading / dispatch subsystem.

Sources embedded:
- src/src/plugins/mod.rs   (LuaPlugin, PluginRegistry, process_command_with_fallback,
                            register_helpers, spawn_watcher)
- src/src/config.rs        (BunnylolConfig.resolve_command, BunnylolConfig.get_search_url)
- src/src/utils/mod.rs     (get_command_from_query_string)
- src/src/main.rs          (execute_command: alias resolution then tokenization then dispatch)

The embedded Lua interpreter (the mlua crate) is external to the repository; a
script is therefore modelled by its observable behaviour at the exact points
where the Rust code interacts with it: whether loading the chunk succeeds,
which globals resolve to a zero-argument function returning a table, and which
globals resolve to a function taking a string and returning a string.  A
failing step of the mlua API (a missing global, a call error, a wrong result
type) is an Option none, exactly as the Rust code collapses every mlua error
with ok().  register_helpers only fails on interpreter-internal allocation
errors and is modelled as always succeeding.
-/

/-! ## Byte-level percent encoding (the percent-encoding crate, as used by the code) -/

/-- UTF-8 encoding of one code point, as a list of byte values. -/
def utf8Bytes (c : Char) : List Nat :=
  let n := c.toNat
  if n < 128 then [n]
  else if n < 2048 then [192 + n / 64, 128 + n % 64]
  else if n < 65536 then [224 + n / 4096, 128 + (n / 64) % 64, 128 + n % 64]
  else [240 + n / 262144, 128 + (n / 4096) % 64, 128 + (n / 64) % 64, 128 + n % 64]

/-- The UTF-8 bytes of a string. -/
def strBytes (s : String) : List Nat :=
  (s.data.map utf8Bytes).flatten

/-- Uppercase hexadecimal digit, as emitted by the percent-encoding crate. -/
def hexDigitChar (n : Nat) : Char :=
  if n < 10 then Char.ofNat (48 + n) else Char.ofNat (55 + n)

/-- A byte is an ASCII letter or digit. -/
def isAsciiAlnumByte (b : Nat) : Bool :=
  (48 ≤ b && b ≤ 57) || (65 ≤ b && b ≤ 90) || (97 ≤ b && b ≤ 122)

/-- Percent-escape of one byte: a percent sign and two uppercase hex digits. -/
def percentEscape (b : Nat) : List Char :=
  ['%', hexDigitChar (b / 16), hexDigitChar (b % 16)]

/-- utf8_percent_encode with the NON_ALPHANUMERIC set: every byte that is not
an ASCII letter or digit (including every byte of a multi-byte code point) is
percent-escaped.  Used by get_search_url, by the url_encode helper and by the
no-config fallback in process_command_with_fallback. -/
def percentEncodeNonAlnum (s : String) : String :=
  String.mk (((strBytes s).map
    (fun b => if isAsciiAlnumByte b then [Char.ofNat b] else percentEscape b)).flatten)

/-! ## String helpers shared with the Lua helper surface -/

/-- Leading-whitespace trim on the character list (Rust str::trim_start). -/
def strTrimLeft (s : String) : String :=
  String.mk (s.data.dropWhile Char.isWhitespace)

/-- Whole trim on the character list (Rust str::trim). -/
def strTrim (s : String) : String :=
  String.mk (((s.data.dropWhile Char.isWhitespace).reverse.dropWhile Char.isWhitespace).reverse)

/-- Rust str::strip_prefix: the remainder after a leading occurrence of p,
or none when p does not lead s. -/
def stripLeading (s p : String) : Option String :=
  if p.data.isPrefixOf s.data then some (String.mk (s.data.drop p.data.length)) else none

/-- The get_args helper registered for plugins (plugins/mod.rs lines 179-185):
strip the binding token when it leads the full input, then trim leading
whitespace. -/
def get_args (full_args binding : String) : String :=
  strTrimLeft ((stripLeading full_args binding).getD full_args)

/-! ## Configuration (src/src/config.rs) -/

/-- The configuration fields the core resolution path reads.  The browser,
history and server sections of BunnylolConfig are consumed only by the
out-of-scope CLI and HTTP surfaces and are omitted. -/
structure BunnylolConfig where
  default_search : String
  aliases : List (String × String)

/-- Default configuration: default_search is "google", no aliases. -/
def BunnylolConfig.defaultConfig : BunnylolConfig :=
  { default_search := "google", aliases := [] }

/-- config.rs lines 361-366: aliases.get(command).cloned().unwrap_or(command).
The alias map is consulted with the whole string, untrimmed. -/
def BunnylolConfig.resolve_command (cfg : BunnylolConfig) (command : String) : String :=
  (List.lookup command cfg.aliases).getD command

/-- config.rs lines 369-379: provider selection and query building. -/
def BunnylolConfig.get_search_url (cfg : BunnylolConfig) (query : String) : String :=
  let encoded_query := percentEncodeNonAlnum query
  if cfg.default_search = "ddg" ∨ cfg.default_search = "duckduckgo" then
    "https://duckduckgo.com/?q=" ++ encoded_query
  else if cfg.default_search = "bing" then
    "https://www.bing.com/search?q=" ++ encoded_query
  else
    "https://www.google.com/search?q=" ++ encoded_query

/-! ## The Lua script model -/

/-- Observable content of the table returned by the metadata entry point.
Each field is none when the corresponding typed get of the mlua API fails.
The bindings field lists the sequence items, each none when its conversion to
a string fails (sequence_values + filter_map ok skips such items). -/
structure InfoTable where
  bindings : Option (List (Option String))
  description : Option String
  exampleStr : Option String

/-- Observable behaviour of one Lua script under the mlua API calls the code
performs.  tableFns are globals usable as zero-argument functions returning a
table (the metadata entry point); strFns are globals usable as functions from
a string to a string (the process entry point).  The outer Option of a
tableFns lookup result models the call itself failing. -/
structure LuaScript where
  execOk : Bool
  tableFns : List (String × Option InfoTable)
  strFns : List (String × (String → Option String))

/-- Typed global lookup for a zero-argument table-returning function. -/
def LuaScript.getTableFn (s : LuaScript) (name : String) : Option (Option InfoTable) :=
  List.lookup name s.tableFns

/-- Typed global lookup for a string-to-string function. -/
def LuaScript.getStrFn (s : LuaScript) (name : String) : Option (String → Option String) :=
  List.lookup name s.strFns

/-- plugins/mod.rs lines 18-25: the loaded plugin value.  The Rust struct
stores the script source text and re-interprets it on every execution; the
model stores the script behaviour itself. -/
structure LuaPlugin where
  bindings : List String
  description : String
  exampleStr : String
  source : LuaScript
  origin : String

/-- plugins/mod.rs lines 28-34: LuaPlugin::execute.  A fresh interpreter is
built, helpers registered, the source executed, the process global fetched
and called; every failing step yields none. -/
def LuaPlugin.execute (p : LuaPlugin) (args : String) : Option String :=
  if p.source.execOk then
    match p.source.getStrFn "process" with
    | some f => f args
    | none => none
  else none

/-! ## Registry (plugins/mod.rs) -/

/-- One candidate plugin file seen by a scan: the name of its immediate
parent directory and the script behaviour of its content (none when reading
the file as UTF-8 text fails). -/
structure PluginFile where
  dirName : String
  content : Option LuaScript

/-- plugins/mod.rs lines 85-94: the origin tag, "user" for the canonical
commands directory, otherwise the directory name verbatim. -/
def originOf (f : PluginFile) : String :=
  if f.dirName = "commands" then "user" else f.dirName

/-- plugins/mod.rs lines 112-134: load_plugin.  Requires a readable file,
a successful chunk execution, a global info that is a function, a successful
call of it returning a table, a bindings field that is a table, and string
description and example fields.  Sequence items of bindings that are not
strings are skipped.  Nothing checks non-emptiness, uniqueness, or the
presence of a process global. -/
def load_plugin (content : Option LuaScript) (origin : String) : Option LuaPlugin :=
  match content with
  | none => none
  | some script =>
    if script.execOk then
      match script.getTableFn "info" with
      | none => none
      | some none => none
      | some (some info_table) =>
        match info_table.bindings with
        | none => none
        | some items =>
          match info_table.description, info_table.exampleStr with
          | some descr, some ex =>
            some { bindings := items.filterMap id, description := descr,
                   exampleStr := ex, source := script, origin := origin }
          | _, _ => none
    else none

/-- The binding map.  Rust uses HashMap; the model is an association list
whose keys are kept unique by insertion. -/
abbrev RegMap := List (String × LuaPlugin)

/-- HashMap::get on the binding map. -/
def lookupBinding : RegMap → String → Option LuaPlugin
  | [], _ => none
  | (k, v) :: rest, q => if q = k then some v else lookupBinding rest q

/-- HashMap::insert: the new pairing replaces any existing entry for the key. -/
def insertBinding (m : RegMap) (k : String) (v : LuaPlugin) : RegMap :=
  (k, v) :: m.filter (fun e => e.1 != k)

/-- HashMap::remove-like erasure, used only to state registry claims. -/
def eraseBinding (m : RegMap) (k : String) : RegMap :=
  m.filter (fun e => e.1 != k)

/-- plugins/mod.rs lines 84-110: register_plugin.  On a successful load the
descriptor is inserted under every one of its binding tokens (a clone per
binding in Rust, the same value in the model); on a failed load the map is
untouched. -/
def register_plugin (m : RegMap) (f : PluginFile) : RegMap :=
  match load_plugin f.content (originOf f) with
  | none => m
  | some p => p.bindings.foldl (fun acc b => insertBinding acc b p) m

/-- plugins/mod.rs lines 63-82: scan_dirs clears the map and registers every
lua file found by the recursive directory walk; the model takes the walk
output as the list of candidate files in scan order. -/
def scan_dirs (files : List PluginFile) : RegMap :=
  files.foldl register_plugin []

/-- plugins/mod.rs lines 136-145: unique_plugins, first-seen deduplication by
primary binding over the value iteration. -/
def uniqueByPrimary : List LuaPlugin → List String → List LuaPlugin
  | [], _ => []
  | p :: rest, seen =>
    let key := (p.bindings.head?).getD ""
    if seen.contains key then uniqueByPrimary rest seen
    else p :: uniqueByPrimary rest (key :: seen)

/-- The deduplicated descriptor list of a snapshot. -/
def unique_plugins (m : RegMap) : List LuaPlugin :=
  uniqueByPrimary (m.map (fun e => e.2)) []

/-! ## Dispatch (utils/mod.rs, plugins/mod.rs, main.rs) -/

/-- utils/mod.rs lines 8-13: the slice up to the first space character, or
the whole string when it has no space.  Only the character U+0020 delimits. -/
def get_command_from_query_string (query_string : String) : String :=
  String.mk (query_string.data.takeWhile (fun c => c != ' '))

/-- The fallback URL of plugins/mod.rs lines 280-287: the configured provider
when a config is present, otherwise the hard-coded Google query. -/
def fallbackSearchUrl (config : Option BunnylolConfig) (full_args : String) : String :=
  match config with
  | some cfg => cfg.get_search_url full_args
  | none => "https://www.google.com/search?q=" ++ percentEncodeNonAlnum full_args

/-- plugins/mod.rs lines 267-287: process_command_with_fallback.  A registry
hit whose execution succeeds returns the produced URL verbatim; a miss or a
failed execution falls through to the fallback URL. -/
def process_command_with_fallback (reg : RegMap) (command full_args : String)
    (config : Option BunnylolConfig) : String :=
  match lookupBinding reg command with
  | some plugin =>
    match plugin.execute full_args with
    | some url => url
    | none => fallbackSearchUrl config full_args
  | none => fallbackSearchUrl config full_args

/-- main.rs lines 243-253 composed with the registry: resolve aliases on the
whole input, tokenize the resolved input, dispatch with fallback. -/
def resolve (reg : RegMap) (cfg : BunnylolConfig) (raw : String) : String :=
  let resolved_args := cfg.resolve_command raw
  let command := get_command_from_query_string resolved_args
  process_command_with_fallback reg command resolved_args (some cfg)

/-! ## The rebuild trace (plugins/mod.rs lines 245-263 with 63-68)

The watcher thread reacts to a filesystem event by taking the write half of
the std::sync::RwLock that guards the registry and calling scan_dirs on the
guarded value.  scan_dirs mutates that published value in place: it first
clears the map, then registers each found file one by one.  A reader
(process_command_with_fallback, get_all_commands) takes the read half, which
std::sync::RwLock grants only while no writer holds the lock.  The trace
below lists every value the published map takes during one rebuild, paired
with whether the writer holds the lock at that moment; a reader can observe
exactly the states whose flag is false. -/

/-- All states of the published map during one watcher-triggered rebuild:
the pre-rebuild state, the in-place intermediate states reached under the
write lock (after the clear, then after each file is registered), and the
post-rebuild state. -/
def rebuildTrace (old : RegMap) (files : List PluginFile) : List (Bool × RegMap) :=
  ((false, old) :: (List.range (files.length + 1)).map
    (fun i => (true, scan_dirs (files.take i))))
    ++ [(false, scan_dirs files)]

/-- Statement of claim C3 over the trace: every state of the published map is
the complete old or the complete new snapshot (the rebuild works off to the
side and installs with one atomic swap) and no state holds the write lock
(readers are never blocked). -/
def rebuildAtomicNonBlocking (old : RegMap) (files : List PluginFile) : Prop :=
  ∀ s ∈ rebuildTrace old files, (s.2 = old ∨ s.2 = scan_dirs files) ∧ s.1 = false

/-! ## Spec-side definitions, following the words of the claims -/

/-- Claim C8 reading of the candidate binding: the substring up to the first
whitespace character (any whitespace, not only the space character). -/
def leadingNonWhitespace (q : String) : String :=
  String.mk (q.data.takeWhile (fun c => !c.isWhitespace))

/-! ## Concrete fixtures used by witnesses and counterexamples -/

/-- Metadata table of a well-formed gh plugin. -/
def ghInfo : InfoTable :=
  { bindings := some [some "gh"], description := some "GitHub",
    exampleStr := some "gh facebook/bunnylol" }

/-- Process behaviour of the gh plugin: a GitHub URL built from the argument
text after the binding token. -/
def ghProcess : String → Option String :=
  fun full => some ("https://github.com/" ++ get_args full "gh")

/-- A well-formed plugin script defining info and process. -/
def ghScript : LuaScript :=
  { execOk := true, tableFns := [("info", some ghInfo)], strFns := [("process", ghProcess)] }

/-- The gh plugin file, located in the user commands directory. -/
def ghFile : PluginFile := { dirName := "commands", content := some ghScript }

/-- The descriptor load_plugin produces for ghFile. -/
def ghLoaded : LuaPlugin :=
  { bindings := ["gh"], description := "GitHub", exampleStr := "gh facebook/bunnylol",
    source := ghScript, origin := "user" }

/-- A script defining a well-formed zero-argument describe entry point (and
process), but no info entry point. -/
def describeScript : LuaScript :=
  { execOk := true, tableFns := [("describe", some ghInfo)], strFns := [("process", ghProcess)] }

/-- A plugin file whose script defines describe instead of info. -/
def describeFile : PluginFile := { dirName := "commands", content := some describeScript }

/-- A script whose info call returns an empty bindings list. -/
def emptyBindingsScript : LuaScript :=
  { execOk := true,
    tableFns := [("info", some { bindings := some [], description := some "Empty",
                                 exampleStr := some "none" })],
    strFns := [("process", ghProcess)] }

/-- A script with well-formed metadata under the binding np but no process
global. -/
def noProcessScript : LuaScript :=
  { execOk := true,
    tableFns := [("info", some { bindings := some [some "np"],
                                 description := some "No process", exampleStr := some "np" })],
    strFns := [] }

/-- The plugin file for noProcessScript, in the user commands directory. -/
def noProcessFile : PluginFile := { dirName := "commands", content := some noProcessScript }

/-- The descriptor load_plugin produces for noProcessFile. -/
def noProcessLoaded : LuaPlugin :=
  { bindings := ["np"], description := "No process", exampleStr := "np",
    source := noProcessScript, origin := "user" }

/-- The alias map of scenario C: work expands to gh myorg. -/
def workAliases : List (String × String) := [("work", "gh myorg")]

/-- A configuration with the default provider and the scenario C alias. -/
def workConfig : BunnylolConfig := { default_search := "google", aliases := workAliases }

/-- The plugin file for emptyBindingsScript, in the user commands directory. -/
def emptyBindingsFile : PluginFile := { dirName := "commands", content := some emptyBindingsScript }

/-- The descriptor load_plugin produces for emptyBindingsFile. -/
def emptyBindingsLoaded : LuaPlugin :=
  { bindings := [], description := "Empty", exampleStr := "none",
    source := emptyBindingsScript, origin := "user" }

/-- A configuration selecting the DuckDuckGo provider. -/
def ddgConfig : BunnylolConfig := { default_search := "ddg", aliases := [] }

/-- A configuration selecting the Bing provider. -/
def bingConfig : BunnylolConfig := { default_search := "bing", aliases := [] }

/-- A configuration with a misspelled provider name. -/
def gogleConfig : BunnylolConfig := { default_search := "gogle", aliases := [] }

/-! ## Helper lemmas on the binding map -/

/-- Filtering out a key other than the one looked up does not change lookup. -/
theorem lookupBinding_filter_ne (m : RegMap) (k q : String) (h : q ≠ k) :
    lookupBinding (m.filter (fun e => e.1 != k)) q = lookupBinding m q := by
  induction m with
  | nil => rfl
  | cons e rest ih =>
    obtain ⟨a, b⟩ := e
    by_cases hak : a = k
    · subst hak
      simp only [List.filter_cons, bne_self_eq_false]
      rw [if_neg (by simp)]
      rw [ih]
      simp [lookupBinding, h]
    · simp only [List.filter_cons]
      rw [if_pos (by simpa using hak)]
      by_cases hqa : q = a
      · subst hqa; simp [lookupBinding]
      · simp [lookupBinding, hqa, ih]

/-- Lookup after insertBinding: the inserted key yields the inserted value,
any other key looks up the previous map. -/
theorem lookupBinding_insert (m : RegMap) (k q : String) (v : LuaPlugin) :
    lookupBinding (insertBinding m k v) q = if q = k then some v else lookupBinding m q := by
  unfold insertBinding
  by_cases h : q = k
  · subst h; simp [lookupBinding]
  · simp [lookupBinding, h, lookupBinding_filter_ne m k q h]

/-- Lookup of an erased key fails. -/
theorem lookupBinding_erase_self (m : RegMap) (k : String) :
    lookupBinding (eraseBinding m k) k = none := by
  unfold eraseBinding
  induction m with
  | nil => rfl
  | cons e rest ih =>
    obtain ⟨a, b⟩ := e
    by_cases hak : a = k
    · subst hak
      simpa [List.filter_cons] using ih
    · simp only [List.filter_cons]
      rw [if_pos (by simpa using hak)]
      simp [lookupBinding, Ne.symm hak, ih]

/-- The registry invariant of claim C9: every key maps to a descriptor whose
bindings list contains the key. -/
def RegInv (m : RegMap) : Prop :=
  ∀ k v, lookupBinding m k = some v → k ∈ v.bindings

/-- insertBinding preserves the invariant when the key is one of the bindings
of the inserted descriptor. -/
theorem regInv_insert {m : RegMap} {k : String} {v : LuaPlugin} (hm : RegInv m)
    (hk : k ∈ v.bindings) : RegInv (insertBinding m k v) := by
  intro q w hq
  rw [lookupBinding_insert] at hq
  by_cases h : q = k
  · rw [if_pos h] at hq
    cases Option.some.inj hq
    subst h
    exact hk
  · rw [if_neg h] at hq
    exact hm q w hq

/-- Folding insertBinding over a list of bindings of one descriptor preserves
the invariant. -/
theorem regInv_foldl {p : LuaPlugin} : ∀ (bs : List String) (m : RegMap),
    (∀ b ∈ bs, b ∈ p.bindings) → RegInv m →
    RegInv (bs.foldl (fun acc b => insertBinding acc b p) m)
  | [], _, _, hm => hm
  | b :: rest, _, hbs, hm =>
    regInv_foldl rest _ (fun x hx => hbs x (List.mem_cons_of_mem _ hx))
      (regInv_insert hm (hbs b (List.mem_cons_self _ _)))

/-- register_plugin preserves the invariant: a loaded descriptor is inserted
only under keys drawn from its own bindings list. -/
theorem regInv_register (m : RegMap) (f : PluginFile) (hm : RegInv m) :
    RegInv (register_plugin m f) := by
  unfold register_plugin
  cases h : load_plugin f.content (originOf f) with
  | none => exact hm
  | some p => exact regInv_foldl p.bindings m (fun b hb => hb) hm

/-- Scanning any file list from any invariant-respecting start map preserves
the invariant. -/
theorem regInv_scan_aux : ∀ (files : List PluginFile) (m : RegMap), RegInv m →
    RegInv (files.foldl register_plugin m)
  | [], _, hm => hm
  | f :: rest, m, hm => regInv_scan_aux rest _ (regInv_register m f hm)

/-- Unfolding equation of load_plugin on a readable file. -/
theorem load_plugin_some_eq (script : LuaScript) (origin : String) :
    load_plugin (some script) origin =
      (if script.execOk then
        match script.getTableFn "info" with
        | none => none
        | some none => none
        | some (some info_table) =>
          match info_table.bindings with
          | none => none
          | some items =>
            match info_table.description, info_table.exampleStr with
            | some descr, some ex =>
              some { bindings := items.filterMap id, description := descr,
                     exampleStr := ex, source := script, origin := origin }
            | _, _ => none
      else none) := rfl

/-- A failed load leaves the map untouched. -/
theorem register_plugin_load_fail {m : RegMap} {f : PluginFile}
    (h : load_plugin f.content (originOf f) = none) : register_plugin m f = m := by
  unfold register_plugin
  rw [h]

/-! ## Claim theorems -/

/-- C9: in every snapshot produced by a scan, every key of the binding map
maps to a descriptor whose bindings list contains that key, so every lookup
hit has a non-empty bindings list; and a loaded descriptor with zero bindings
registers nothing at all, leaving the map (hence lookup and the listing
derived from the map) unchanged. -/
theorem c9_snapshot_binding_invariant :
    (∀ (files : List PluginFile) (k : String) (p : LuaPlugin),
        lookupBinding (scan_dirs files) k = some p → k ∈ p.bindings ∧ p.bindings ≠ []) ∧
    (∀ (m : RegMap) (f : PluginFile) (p : LuaPlugin),
        load_plugin f.content (originOf f) = some p → p.bindings = [] →
        register_plugin m f = m) := by
  constructor
  · intro files k p h
    have hinv : RegInv (scan_dirs files) :=
      regInv_scan_aux files [] (fun q w hq => by simp [lookupBinding] at hq)
    have hk := hinv k p h
    refine ⟨hk, ?_⟩
    intro hnil
    rw [hnil] at hk
    cases hk
  · intro m f p hload hnil
    unfold register_plugin
    rw [hload]
    show p.bindings.foldl (fun acc b => insertBinding acc b p) m = m
    rw [hnil]
    rfl

/-- C9 witness: concrete instantiations of both parts. -/
theorem c9_witness :
    ("gh" ∈ ghLoaded.bindings ∧ ghLoaded.bindings ≠ []) ∧
    register_plugin [] emptyBindingsFile = [] :=
  ⟨c9_snapshot_binding_invariant.1 [ghFile] "gh" ghLoaded rfl,
   c9_snapshot_binding_invariant.2 [] emptyBindingsFile emptyBindingsLoaded rfl rfl⟩

/-- C4 counterexample: a file defining a well-formed zero-argument describe
entry point (with process) is not loaded, while a file whose info entry point
reports an empty bindings list is loaded; the loader therefore neither
invokes an entry point named describe nor validates non-emptiness. -/
theorem c4_counterexample :
    load_plugin (some describeScript) "user" = none ∧
    (load_plugin (some emptyBindingsScript) "user").isSome = true :=
  ⟨rfl, rfl⟩

/-- C4 amended: the required zero-argument metadata entry point is named
info, not describe; a script without an info global (or whose chunk fails) is
not loaded; and the loader performs no non-emptiness or uniqueness validation
of the bindings list, loading a descriptor with an empty bindings list. -/
theorem c4_loader_entry_point_is_info :
    (∀ (script : LuaScript) (origin : String),
        script.getTableFn "info" = none → load_plugin (some script) origin = none) ∧
    (∀ (script : LuaScript) (origin : String) (p : LuaPlugin),
        load_plugin (some script) origin = some p →
        script.execOk = true ∧ (script.getTableFn "info").isSome = true) ∧
    load_plugin (some emptyBindingsScript) "user" = some emptyBindingsLoaded := by
  refine ⟨?_, ?_, rfl⟩
  · intro script origin h
    rw [load_plugin_some_eq, h]
    split <;> rfl
  · intro script origin p h
    rw [load_plugin_some_eq] at h
    by_cases he : script.execOk = true
    · rw [if_pos he] at h
      refine ⟨he, ?_⟩
      cases hg : script.getTableFn "info" with
      | none =>
        rw [hg] at h
        exact Option.noConfusion h
      | some t => rfl
    · rw [if_neg he] at h
      exact Option.noConfusion h

/-- C4 witness: concrete instantiations of both universally quantified parts. -/
theorem c4_witness :
    load_plugin (some describeScript) "x" = none ∧
    (ghScript.execOk = true ∧ (ghScript.getTableFn "info").isSome = true) :=
  ⟨c4_loader_entry_point_is_info.1 describeScript "x" rfl,
   c4_loader_entry_point_is_info.2.1 ghScript "user" ghLoaded rfl⟩

/-- C5 counterexample: a plugin file with well-formed metadata but no process
function is loaded, not skipped, at load time. -/
theorem c5_counterexample :
    (load_plugin (some noProcessScript) "user").isSome = true :=
  rfl

/-- C5 amended: a file whose load fails contributes nothing and the scan of
the remaining files is unchanged; a bad file does not prevent a sibling from
registering; and a file lacking process is loaded and registered anyway (its
missing process only surfaces at dispatch time). -/
theorem c5_failed_load_skipped_siblings_survive :
    (∀ (pre post : List PluginFile) (f : PluginFile),
        load_plugin f.content (originOf f) = none →
        scan_dirs (pre ++ f :: post) = scan_dirs (pre ++ post)) ∧
    lookupBinding (scan_dirs [describeFile, ghFile]) "gh" = some ghLoaded ∧
    lookupBinding (scan_dirs [noProcessFile]) "np" = some noProcessLoaded := by
  refine ⟨?_, rfl, rfl⟩
  intro pre post f h
  unfold scan_dirs
  rw [List.foldl_append, List.foldl_append, List.foldl_cons, register_plugin_load_fail h]

/-- C5 witness: a concrete failing file is dropped from a concrete scan. -/
theorem c5_witness :
    scan_dirs ([] ++ describeFile :: [ghFile]) = scan_dirs ([] ++ [ghFile]) :=
  c5_failed_load_skipped_siblings_survive.1 [] [ghFile] describeFile rfl

/-- C3 counterexample: during a concrete rebuild the published map passes,
under the write lock, through the empty intermediate state left by the clear,
a state that is neither the old nor the new snapshot; the rebuild is
therefore an in-place repopulation under a writer lock, not an off-to-the-
side construction installed by one atomic swap, and readers are locked out
while it runs. -/
theorem c3_counterexample :
    ¬ rebuildAtomicNonBlocking [("gh", ghLoaded)] [ghFile] ∧
    ((true, ([] : RegMap)) ∈ rebuildTrace [("gh", ghLoaded)] [ghFile] ∧
      ([] : RegMap) ≠ [("gh", ghLoaded)] ∧ ([] : RegMap) ≠ scan_dirs [ghFile]) := by
  have htrace : rebuildTrace [("gh", ghLoaded)] [ghFile] =
      [(false, [("gh", ghLoaded)]), (true, []), (true, [("gh", ghLoaded)]),
       (false, [("gh", ghLoaded)])] := rfl
  have hmem : (true, ([] : RegMap)) ∈ rebuildTrace [("gh", ghLoaded)] [ghFile] := by
    rw [htrace]
    exact List.mem_cons_of_mem _ (List.mem_cons_self _ _)
  refine ⟨?_, hmem, fun h => List.noConfusion h, fun h => List.noConfusion h⟩
  intro hA
  exact absurd (hA _ hmem).2 (by simp)

/-- C3 amended: the rebuild mutates the one published map in place while
holding the writer half of the RwLock, so concurrent lookups are blocked for
its duration; but precisely because readers can acquire the lock only in the
writer-free states, every map a reader can observe is the complete old
snapshot or the complete new snapshot, never a partially populated one. -/
theorem c3_reader_observes_complete_snapshot :
    ∀ (old : RegMap) (files : List PluginFile) (s : Bool × RegMap),
      s ∈ rebuildTrace old files → s.1 = false →
      s.2 = old ∨ s.2 = scan_dirs files := by
  intro old files s hmem hfalse
  unfold rebuildTrace at hmem
  rw [List.mem_append] at hmem
  cases hmem with
  | inl h =>
    rw [List.mem_cons] at h
    cases h with
    | inl h =>
      subst h
      exact Or.inl rfl
    | inr h =>
      obtain ⟨i, hi, hs⟩ := List.mem_map.mp h
      rw [← hs] at hfalse
      exact absurd hfalse (by simp)
  | inr h =>
    rw [List.mem_singleton] at h
    subst h
    exact Or.inr rfl

/-- C3 witness: the amended theorem applied to a concrete pre-rebuild state. -/
theorem c3_witness :
    ((false, ([("gh", ghLoaded)] : RegMap)).2 = [("gh", ghLoaded)] ∨
      (false, ([("gh", ghLoaded)] : RegMap)).2 = scan_dirs [ghFile]) :=
  c3_reader_observes_complete_snapshot [("gh", ghLoaded)] [ghFile]
    (false, [("gh", ghLoaded)])
    (by
      have htrace : rebuildTrace [("gh", ghLoaded)] [ghFile] =
          [(false, [("gh", ghLoaded)]), (true, []), (true, [("gh", ghLoaded)]),
           (false, [("gh", ghLoaded)])] := rfl
      rw [htrace]
      exact List.mem_cons_self _ _)
    rfl

/-- Dispatch falls back whenever the looked-up plugin (if any) fails to
execute. -/
theorem process_fallback_of_exec_fail (reg : RegMap) (cmd full : String)
    (cfg : Option BunnylolConfig)
    (hfail : ∀ p, lookupBinding reg cmd = some p → p.execute full = none) :
    process_command_with_fallback reg cmd full cfg = fallbackSearchUrl cfg full := by
  unfold process_command_with_fallback
  cases hl : lookupBinding reg cmd with
  | none => rfl
  | some p =>
    show (match p.execute full with
      | some url => url
      | none => fallbackSearchUrl cfg full) = fallbackSearchUrl cfg full
    rw [hfail p hl]

/-- C1: resolve is a total function into URL strings, and whenever the
looked-up plugin is missing, or its process raises, returns a non-string or
does not exist (all the cases where execute yields none), the result is
exactly the configured fallback URL built from the full post-alias input,
which is also exactly the result over a registry with no plugin under the
leading token. -/
theorem c1_resolve_always_yields_fallback_on_failure :
    ∀ (reg : RegMap) (cfg : BunnylolConfig) (raw : String),
      (∀ p, lookupBinding reg (get_command_from_query_string (cfg.resolve_command raw)) =
          some p → p.execute (cfg.resolve_command raw) = none) →
      resolve reg cfg raw = cfg.get_search_url (cfg.resolve_command raw) ∧
      resolve reg cfg raw =
        resolve (eraseBinding reg (get_command_from_query_string (cfg.resolve_command raw)))
          cfg raw := by
  intro reg cfg raw hfail
  have h1 : resolve reg cfg raw = cfg.get_search_url (cfg.resolve_command raw) :=
    process_fallback_of_exec_fail reg _ _ (some cfg) hfail
  refine ⟨h1, ?_⟩
  have h2 :
      resolve (eraseBinding reg (get_command_from_query_string (cfg.resolve_command raw)))
          cfg raw = cfg.get_search_url (cfg.resolve_command raw) :=
    process_fallback_of_exec_fail _ _ _ (some cfg) (fun p hp => by
      rw [lookupBinding_erase_self] at hp
      exact Option.noConfusion hp)
  rw [h1, h2]

/-- C1 witness: a registry whose only plugin lacks a process function
degrades to the fallback URL on a concrete input. -/
theorem c1_witness :
    resolve [("np", noProcessLoaded)] BunnylolConfig.defaultConfig "np hello" =
      BunnylolConfig.defaultConfig.get_search_url
        (BunnylolConfig.defaultConfig.resolve_command "np hello") ∧
    resolve [("np", noProcessLoaded)] BunnylolConfig.defaultConfig "np hello" =
      resolve
        (eraseBinding [("np", noProcessLoaded)]
          (get_command_from_query_string
            (BunnylolConfig.defaultConfig.resolve_command "np hello")))
        BunnylolConfig.defaultConfig "np hello" :=
  c1_resolve_always_yields_fallback_on_failure [("np", noProcessLoaded)]
    BunnylolConfig.defaultConfig "np hello"
    (fun p hp => by
      have h2 : some noProcessLoaded = some p :=
        (rfl : lookupBinding [("np", noProcessLoaded)]
          (get_command_from_query_string
            (BunnylolConfig.defaultConfig.resolve_command "np hello")) =
            some noProcessLoaded).symm.trans hp
      cases Option.some.inj h2
      rfl)

/-- C6 counterexample: with the alias work mapped to gh myorg, the input
consisting of a leading space followed by work has a trimmed form that
exactly equals the alias key, yet no substitution is applied: the input is
dispatched unchanged, because the alias map is consulted with the untrimmed
string. -/
theorem c6_counterexample :
    strTrim " work" = "work" ∧
    List.lookup (strTrim " work") workAliases = some "gh myorg" ∧
    workConfig.resolve_command " work" = " work" ∧
    (" work" : String) ≠ "gh myorg" :=
  ⟨rfl, rfl, rfl, by decide⟩

/-- C6 amended: an alias substitution applies exactly when the entire raw
input (untrimmed) equals an alias key, replacing the whole input before
tokenization; an input whose leading token equals a key but which carries
further text is dispatched unchanged; and under the work alias the input
work resolves to gh myorg, is dispatched to the gh plugin, whose argument
extraction yields myorg. -/
theorem c6_alias_matches_whole_untrimmed_input :
    (∀ (cfg : BunnylolConfig) (raw : String),
        List.lookup raw cfg.aliases = none → cfg.resolve_command raw = raw) ∧
    (∀ (cfg : BunnylolConfig) (raw target : String),
        List.lookup raw cfg.aliases = some target → cfg.resolve_command raw = target) ∧
    workConfig.resolve_command "work myorg" = "work myorg" ∧
    workConfig.resolve_command "work" = "gh myorg" ∧
    get_command_from_query_string (workConfig.resolve_command "work") = "gh" ∧
    get_args (workConfig.resolve_command "work") "gh" = "myorg" ∧
    resolve [("gh", ghLoaded)] workConfig "work" = "https://github.com/myorg" := by
  refine ⟨?_, ?_, rfl, rfl, rfl, rfl, rfl⟩
  · intro cfg raw h
    unfold BunnylolConfig.resolve_command
    rw [h]
    rfl
  · intro cfg raw target h
    unfold BunnylolConfig.resolve_command
    rw [h]
    rfl

/-- C6 witness: both quantified parts of the amended claim at concrete
inputs. -/
theorem c6_witness :
    workConfig.resolve_command "nope" = "nope" ∧
    workConfig.resolve_command "work" = "gh myorg" :=
  ⟨c6_alias_matches_whole_untrimmed_input.1 workConfig "nope" rfl,
   c6_alias_matches_whole_untrimmed_input.2.1 workConfig "work" "gh myorg" rfl⟩

/-- C7: a lookup miss dispatches to the configured provider URL with the
percent-encoded full post-alias input as the query parameter value; every
provider result is one of the three provider bases followed by the encoded
input; and concretely, with the default configuration and an empty registry,
resolve on tw yields the Google URL carrying q=tw. -/
theorem c7_lookup_miss_builds_provider_url :
    (∀ (reg : RegMap) (cfg : BunnylolConfig) (command full_args : String),
        lookupBinding reg command = none →
        process_command_with_fallback reg command full_args (some cfg) =
          cfg.get_search_url full_args) ∧
    (∀ (cfg : BunnylolConfig) (q : String),
        ∃ base, (base = "https://duckduckgo.com/?q=" ∨
                 base = "https://www.bing.com/search?q=" ∨
                 base = "https://www.google.com/search?q=") ∧
          cfg.get_search_url q = base ++ percentEncodeNonAlnum q) ∧
    resolve [] BunnylolConfig.defaultConfig "tw" = "https://www.google.com/search?q=tw" := by
  refine ⟨?_, ?_, rfl⟩
  · intro reg cfg command full_args h
    unfold process_command_with_fallback
    rw [h]
    rfl
  · intro cfg q
    simp only [BunnylolConfig.get_search_url]
    by_cases h1 : cfg.default_search = "ddg" ∨ cfg.default_search = "duckduckgo"
    · exact ⟨_, Or.inl rfl, by rw [if_pos h1]⟩
    · by_cases h2 : cfg.default_search = "bing"
      · exact ⟨_, Or.inr (Or.inl rfl), by rw [if_neg h1, if_pos h2]⟩
      · exact ⟨_, Or.inr (Or.inr rfl), by rw [if_neg h1, if_neg h2]⟩

/-- C7 witness: both quantified parts at concrete inputs. -/
theorem c7_witness :
    process_command_with_fallback [] "tw" "tw" (some BunnylolConfig.defaultConfig) =
      BunnylolConfig.defaultConfig.get_search_url "tw" ∧
    ∃ base, (base = "https://duckduckgo.com/?q=" ∨
             base = "https://www.bing.com/search?q=" ∨
             base = "https://www.google.com/search?q=") ∧
      BunnylolConfig.defaultConfig.get_search_url "tw" =
        base ++ percentEncodeNonAlnum "tw" :=
  ⟨c7_lookup_miss_builds_provider_url.1 [] BunnylolConfig.defaultConfig "tw" "tw" rfl,
   c7_lookup_miss_builds_provider_url.2.1 BunnylolConfig.defaultConfig "tw"⟩

/-- C8 counterexample: on an input whose only whitespace is a tab, the code
returns the whole input as the candidate binding, while the substring up to
the first whitespace character would be the part before the tab. -/
theorem c8_counterexample :
    get_command_from_query_string "a\tb" = "a\tb" ∧
    leadingNonWhitespace "a\tb" = "a" ∧
    ("a\tb" : String) ≠ "a" :=
  ⟨rfl, rfl, by decide⟩

/-- C8 amended: the candidate binding is the substring up to the first space
character (U+0020) — other whitespace does not delimit — or the whole input
when it contains no space: the returned token contains no space, the input
is exactly the token followed by the remainder from the first space on, and
a space-free input is returned whole. -/
theorem c8_leading_token_space_delimited :
    ∀ (q : String),
      (' ' ∉ (get_command_from_query_string q).data) ∧
      (get_command_from_query_string q).data ++ q.data.dropWhile (fun c => c != ' ') =
        q.data ∧
      (' ' ∉ q.data → get_command_from_query_string q = q) := by
  intro q
  refine ⟨?_, ?_, ?_⟩
  · intro hmem
    have h := List.mem_takeWhile_imp (p := fun c => c != ' ')
      (show ' ' ∈ q.data.takeWhile (fun c => c != ' ') from hmem)
    simp at h
  · show (q.data.takeWhile (fun c => c != ' ')) ++ q.data.dropWhile (fun c => c != ' ') =
      q.data
    exact List.takeWhile_append_dropWhile (fun c => c != ' ') q.data
  · intro hnos
    show String.mk (q.data.takeWhile (fun c => c != ' ')) = q
    have hall : ∀ c ∈ q.data, (fun c => c != ' ') c = true := by
      intro c hc
      simp only [bne_iff_ne, ne_eq, decide_eq_true_eq]
      intro hcs
      exact hnos (hcs ▸ hc)
    rw [List.takeWhile_eq_self_iff.mpr hall]

/-- C8 witness: the amended characterization at a concrete space-free input. -/
theorem c8_witness :
    (' ' ∉ (get_command_from_query_string "tw").data) ∧
    get_command_from_query_string "tw" = "tw" :=
  ⟨(c8_leading_token_space_delimited "tw").1,
   (c8_leading_token_space_delimited "tw").2.2 (by decide)⟩

/-- C10: provider selection is total: ddg and duckduckgo select DuckDuckGo,
bing selects Bing, every other provider string (including misspellings)
selects Google, and dispatching with no configuration at all falls back to
the Google URL with the percent-encoded full input; no provider value can
make the fallback fail. -/
theorem c10_provider_selection_total :
    (∀ (cfg : BunnylolConfig) (q : String),
        cfg.default_search = "ddg" ∨ cfg.default_search = "duckduckgo" →
        cfg.get_search_url q = "https://duckduckgo.com/?q=" ++ percentEncodeNonAlnum q) ∧
    (∀ (cfg : BunnylolConfig) (q : String),
        cfg.default_search = "bing" →
        cfg.get_search_url q = "https://www.bing.com/search?q=" ++ percentEncodeNonAlnum q) ∧
    (∀ (cfg : BunnylolConfig) (q : String),
        ¬(cfg.default_search = "ddg" ∨ cfg.default_search = "duckduckgo") →
        cfg.default_search ≠ "bing" →
        cfg.get_search_url q = "https://www.google.com/search?q=" ++ percentEncodeNonAlnum q) ∧
    (∀ (reg : RegMap) (command full_args : String),
        lookupBinding reg command = none →
        process_command_with_fallback reg command full_args none =
          "https://www.google.com/search?q=" ++ percentEncodeNonAlnum full_args) := by
  refine ⟨?_, ?_, ?_, ?_⟩
  · intro cfg q h
    simp only [BunnylolConfig.get_search_url]
    rw [if_pos h]
  · intro cfg q h
    simp only [BunnylolConfig.get_search_url]
    rw [if_neg (by rw [h]; decide), if_pos h]
  · intro cfg q h1 h2
    simp only [BunnylolConfig.get_search_url]
    rw [if_neg h1, if_neg h2]
  · intro reg command full_args h
    unfold process_command_with_fallback
    rw [h]
    rfl

/-- C10 witness: all four parts at concrete configurations and inputs,
including a misspelled provider name. -/
theorem c10_witness :
    ddgConfig.get_search_url "x" = "https://duckduckgo.com/?q=" ++ percentEncodeNonAlnum "x" ∧
    bingConfig.get_search_url "x" =
      "https://www.bing.com/search?q=" ++ percentEncodeNonAlnum "x" ∧
    gogleConfig.get_search_url "x" =
      "https://www.google.com/search?q=" ++ percentEncodeNonAlnum "x" ∧
    process_command_with_fallback [] "tw" "tw" none =
      "https://www.google.com/search?q=" ++ percentEncodeNonAlnum "tw" :=
  ⟨c10_provider_selection_total.1 ddgConfig "x" (Or.inl rfl),
   c10_provider_selection_total.2.1 bingConfig "x" rfl,
   c10_provider_selection_total.2.2.1 gogleConfig "x" (by decide) (by decide),
   c10_provider_selection_total.2.2.2 [] "tw" "tw" rfl⟩
